import Mathlib

/-!
Verification of the alert service (src/services/alertService.ts).

The development shallowly embeds the service's methods as pure Lean
functions.  Asynchronous methods are modelled as functions from an
explicit environment (the outcomes of the platform interactions they
await: push-subscription acquisition, the price feed, the fetch round
trip) to a result together with a trace of observable effects (network
requests, store writes, event-bus emissions, user notices).  JavaScript
numbers are modelled as exact rationals, `undefined`/`null` as `Option`,
and a thrown exception as the `Except.error` branch of a result.
-/

set_option maxHeartbeats 1000000

namespace AlertService

/-- Modelled from the spec (§3 Data Model; the `MarketAlert` type lives in
`@/types/types`, outside the provided source): an alert record with the five
fields the service reads and writes. -/
structure MarketAlert where
  market : String
  price : ℚ
  timestamp : ℕ
  active : Bool
  triggered : Bool
deriving DecidableEq, Repr

/-! ## Sync gate (`_promiseOfSync`, `syncTriggeredAlerts`, `getAlerts`)

`_promiseOfSync : Promise<void>` is modelled as `Option ℕ`: `none` while the
field is still `undefined`, `some id` once a promise object has been assigned,
where `id` is a fresh identifier distinguishing distinct promise objects.
-/

/-- The observable steps of a `getAlerts(market)` call: awaiting the sync gate
(which completes only once the gate promise has resolved) and delegating the
query to the store adapter (`workspacesService.getAlerts`). -/
inductive ReadAction where
  | awaitSyncGate
  | queryStore (market : String)
deriving DecidableEq, Repr

/-- `getAlerts(market)`, from the source:
`if (this._promiseOfSync) { await this._promiseOfSync }` followed by
`return workspacesService.getAlerts(market)`.  The trace records, in order,
the suspension on the gate (only when the field is set) and the delegation. -/
def getAlertsActions (promiseOfSync : Option ℕ) (market : String) : List ReadAction :=
  match promiseOfSync with
  | some _ => [ReadAction.awaitSyncGate, ReadAction.queryStore market]
  | none => [ReadAction.queryStore market]

/-- The per-process sync state: the `_promiseOfSync` field and a counter of
how many gate promises have been constructed so far (each `new Promise`
yields a distinct object; fresh identifiers make replacement observable). -/
structure SyncState where
  promiseOfSync : Option ℕ
  gatesCreated : ℕ
deriving DecidableEq, Repr

/-- The state of the process before any sync call: `_promiseOfSync` is
`undefined` and no gate promise has been created. -/
def initialSyncState : SyncState :=
  { promiseOfSync := none, gatesCreated := 0 }

/-- `syncTriggeredAlerts()`, gate-assignment part, from the source: the body
unconditionally executes `this._promiseOfSync = new Promise(...)`, i.e. every
invocation constructs a fresh promise and stores it in the field. -/
def syncTriggeredAlerts (s : SyncState) : SyncState :=
  { promiseOfSync := some s.gatesCreated, gatesCreated := s.gatesCreated + 1 }

/-! ## Alert validator (`getPrice`, `validateAlert`) -/

/-- JavaScript truthiness of the awaited `getPrice` result: `null` (modelled
`none`) and `0` are falsy, every other number is truthy. -/
def priceTruthy : Option ℚ → Bool
  | none => false
  | some x => decide (x ≠ 0)

/-- `validateAlert(market, price)` from the source, with the awaited
`getPrice(market)` result passed explicitly (`none` models the feed
resolving `null` for an unknown market).  Only when the fetched market price
is truthy does the guard `price < 0 || pct > 100 || pct < -50` run, where
`pct = (price / marketPrice - 1) * 100`; otherwise the alert is accepted. -/
def validateAlert (marketPrice : Option ℚ) (price : ℚ) : Bool :=
  match marketPrice with
  | none => true
  | some mp =>
    if mp ≠ 0 then
      if price < 0 ∨ (price / mp - 1) * 100 > 100 ∨ (price / mp - 1) * 100 < -50 then
        false
      else
        true
    else
      true

/-! ## Reconciliation engine (`markAlertsAsTriggered`)

The store adapter (`workspacesService`) is modelled as a map from market id
to that market's alert list; `saveAlerts` is the corresponding functional
update.  `markAlertsAsTriggered` therefore maps an input store to the store
after all of its per-market read-modify-write passes.
-/

/-- A trigger event as received by the reconciliation engine: either a
recovered notification payload or a live push message.  `market` is `none`
when the payload has no market field (the code guards with `!market`, which
also drops an empty string), `price` is `none` when the payload's price is
not a number (the code guards with `typeof price !== 'number'`). -/
structure TriggerEvent where
  market : Option String
  price : Option ℚ
deriving DecidableEq, Repr

/-- The grouping guard of `markAlertsAsTriggered`:
`if (!market || typeof price !== 'number') return acc` — an event survives
grouping exactly when it has a truthy market string and a numeric price. -/
def validEvent (ev : TriggerEvent) : Option (String × ℚ) :=
  match ev.market, ev.price with
  | some m, some p => if m = "" then none else some (m, p)
  | some _, none => none
  | none, _ => none

/-- `acc[market].push(price)` on the accumulator object, modelled as an
insertion-ordered association list from market to its list of prices:
append the price to the market's entry, or add a new entry at the end. -/
def addToGroups : List (String × List ℚ) → String → ℚ → List (String × List ℚ)
  | [], m, p => [(m, [p])]
  | (k, ps) :: rest, m, p =>
    if k = m then (k, ps ++ [p]) :: rest
    else (k, ps) :: addToGroups rest m p

/-- One step of the `alerts.reduce(...)` grouping pass. -/
def groupStep (acc : List (String × List ℚ)) (ev : TriggerEvent) : List (String × List ℚ) :=
  match validEvent ev with
  | none => acc
  | some (m, p) => addToGroups acc m p

/-- The full `reduce` call of `markAlertsAsTriggered`: group the numeric
prices of well-formed events by market, preserving event order within each
market and first-occurrence order across markets. -/
def groupEvents (evs : List TriggerEvent) : List (String × List ℚ) :=
  evs.foldl groupStep []

/-- Look a market up in the grouped accumulator. -/
def lookupG : List (String × List ℚ) → String → Option (List ℚ)
  | [], _ => none
  | (k, ps) :: rest, m => if k = m then some ps else lookupG rest m

/-- The grouped prices destined for one market (`[]` when the market has no
well-formed event). -/
def priceList (evs : List TriggerEvent) (m : String) : List ℚ :=
  (lookupG (groupEvents evs) m).getD []

/-- `const alert = alerts.find(a => a.price === price); if (alert)
alert.triggered = true` — set `triggered` on the first stored alert whose
price equals the event price, leaving everything else in place. -/
def markFirst : List MarketAlert → ℚ → List MarketAlert
  | [], _ => []
  | a :: rest, p =>
    if a.price = p then { a with triggered := true } :: rest
    else a :: markFirst rest p

/-- The `for (const price of markets[market])` loop: apply `markFirst` for
each grouped price in order. -/
def foldMark (alerts : List MarketAlert) (ps : List ℚ) : List MarketAlert :=
  ps.foldl markFirst alerts

/-- One iteration of the `for (const market in markets)` loop: load the
market's list from the store, skip the market when the list is empty
(`if (!alerts.length) continue`), otherwise mark every grouped price and
write the resulting list back for that market. -/
def processMarket (store : String → List MarketAlert) (entry : String × List ℚ) :
    String → List MarketAlert :=
  let alerts := store entry.1
  if alerts = [] then store
  else fun m => if m = entry.1 then foldMark alerts entry.2 else store m

/-- `markAlertsAsTriggered(alerts)` from the source: group the events, then
run the per-market read-modify-write loop over the grouped markets. -/
def markAlertsAsTriggered (store : String → List MarketAlert)
    (evs : List TriggerEvent) : String → List MarketAlert :=
  (groupEvents evs).foldl processMarket store

/-- Specification helper (not part of the embedding): the index of the first
stored alert whose price equals `p` — the alert `alerts.find(a => a.price
=== price)` returns. -/
def firstMatchIdx : List MarketAlert → ℚ → Option ℕ
  | [], _ => none
  | a :: rest, p =>
    if a.price = p then some 0 else (firstMatchIdx rest p).map (· + 1)

/-- Specification helper: does some price in `ps` have its first match at
index `i` of `alerts`? -/
def firstMatchAt (alerts : List MarketAlert) (ps : List ℚ) (i : ℕ) : Bool :=
  ps.any fun p => decide (firstMatchIdx alerts p = some i)

/-- Specification helper: the effect of one market's loop iteration on that
market's list, as a function of its grouped prices (`none`: the market had no
well-formed event). -/
def applyGroup (alerts : List MarketAlert) : Option (List ℚ) → List MarketAlert
  | none => alerts
  | some ps => if alerts = [] then alerts else foldMark alerts ps

/-! ## Alert lifecycle facade

The remaining methods are modelled against an explicit environment carrying
the outcome of every platform interaction they await.  Each method returns
its result (with `Except.error` for an exception escaping the method)
together with the ordered trace of its observable effects.
-/

/-- The serialized push subscription (only its identity matters here). -/
structure PushSubscription where
  endpoint : String
deriving DecidableEq, Repr

/-- Decidable equality of `Except` results, so that witnesses can be checked
by evaluation. -/
instance exceptDecEq {ε α : Type} [DecidableEq ε] [DecidableEq α] :
    DecidableEq (Except ε α) := fun a b =>
  match a, b with
  | .ok x, .ok y =>
    if h : x = y then .isTrue (by rw [h])
    else .isFalse (by intro hc; cases hc; exact h rfl)
  | .ok _, .error _ => .isFalse (by intro hc; cases hc)
  | .error _, .ok _ => .isFalse (by intro hc; cases hc)
  | .error x, .error y =>
    if h : x = y then .isTrue (by rw [h])
    else .isFalse (by intro hc; cases hc; exact h rfl)

/-- The JSON body the alert backend answers with: an optional `error` string
and, on the remove path, an optional `alert` object of which the code reads
`market` and `price`. -/
structure AlertResponse where
  error : Option String := none
  alert : Option (String × ℚ) := none
deriving DecidableEq, Repr

/-- An exception that can escape one of the service's methods. -/
inductive JsError where
  /-- `TypeError` raised by `data.error` in `subscribe` when `toggleAlert`
  resolved `undefined`. -/
  | typeErrorReadError
  /-- `TypeError` raised by `data.alert` in `unsubscribe` when `toggleAlert`
  resolved `undefined`. -/
  | typeErrorReadAlert
  /-- A rejection of the platform push interaction awaited inside
  `getPushSubscription` (`getRegistration` / `pushManager.subscribe`). -/
  | platformError (msg : String)
deriving DecidableEq, Repr

/-- The extra payload fields of an `alert` event-bus emission. -/
inductive EmitExtra where
  | add (timestamp : ℕ)
  | move (newPrice : ℚ)
  | remove
deriving DecidableEq, Repr

/-- The content of a `app/showNotice` dispatch (the formatted title is
abstracted to its data). -/
inductive Notice where
  | added (market : String) (price : ℚ)
  | removed (market : String) (price : ℚ)
  | notFound
  | pushPermission (err : JsError)
deriving DecidableEq, Repr

/-- One observable effect of a lifecycle method. -/
inductive Effect where
  /-- A `fetch` POST to the alert backend.  `newPrice` is set on the move
  path and absent on the create/remove path. -/
  | fetchRequest (market : String) (price : ℚ) (unsub : Bool) (newPrice : Option ℚ)
  /-- `handleFetchError(err)` on a caught fetch-chain failure. -/
  | fetchErrorHandled (msg : String)
  /-- The `console.error` of a rejected price in `validateAlert`. -/
  | logPriceError (market : String) (price : ℚ)
  /-- A `store.dispatch('app/showNotice', ...)`. -/
  | notice (id : Option String) (title : Notice) (ntype : Option String)
  /-- An `aggregatorService.emit('alert', ...)`. -/
  | emitAlert (price : ℚ) (market : String) (extra : EmitExtra)
  /-- The in-place mutation of the moved record in `moveAlert` (recorded so
  that its position relative to the emission is visible in the trace). -/
  | mutateRecord (price : ℚ) (triggered : Bool) (active : Bool)
  /-- A `workspacesService.saveAlerts({market, alerts})` persistence call. -/
  | saveAlerts (market : String) (alerts : List MarketAlert)
deriving DecidableEq, Repr

/-- The environment of one lifecycle call: configuration plus the outcome of
each awaited platform interaction. -/
structure Env where
  /-- Is `VUE_APP_PUBLIC_VAPID_KEY` configured (truthy)? -/
  hasVapidKey : Bool
  /-- The cached `this.pushSubscription` at call time. -/
  pushSubscription : Option PushSubscription
  /-- `'serviceWorker' in navigator`. -/
  serviceWorkerAvailable : Bool
  /-- The outcome of `getRegistration('sw.js')` + `pushManager.subscribe`:
  a serialized subscription or a rejection/TypeError. -/
  platformSubscribe : Except String PushSubscription
  /-- The price the feed publishes for each market in `getPrice` (`none`
  models the `null` resolution for an unknown market). -/
  marketPrice : String → Option ℚ
  /-- The outcome of the fetch round trip: the parsed JSON response, or the
  message of a network/parse failure. -/
  fetchResult : Except String AlertResponse

/-- `getPushSubscription()` from the source: no configured key resolves
`undefined` (push silently disabled); a cached subscription is returned as
is; otherwise, when service workers exist, the platform interaction is
awaited (its rejection escapes this method) and its result returned; without
service-worker support the still-unset field (`undefined`) is returned. -/
def getPushSubscription (env : Env) : Except JsError (Option PushSubscription) :=
  if !env.hasVapidKey then .ok none
  else
    match env.pushSubscription with
    | some s => .ok (some s)
    | none =>
      if env.serviceWorkerAvailable then
        match env.platformSubscribe with
        | .error e => .error (.platformError e)
        | .ok s => .ok (some s)
      else .ok none

/-- `toggleAlert(market, price, currentPrice?, unsubscribe?, status?)` from
the source: resolve `undefined` when there is no subscription or validation
rejects; otherwise POST to the backend.  In the fetch chain a response with
an `error` field is thrown and immediately caught, and a network failure is
caught likewise; both are handed to `handleFetchError` and converted to an
`{error: message}` result, so the fetch stage itself never throws.
(`currentPrice` and `status` only travel inside the request body and are not
modelled.) -/
def toggleAlert (env : Env) (market : String) (price : ℚ) (unsub : Bool) :
    Except JsError (Option AlertResponse) × List Effect :=
  match getPushSubscription env with
  | .error e => (.error e, [])
  | .ok none => (.ok none, [])
  | .ok (some _) =>
    if validateAlert (env.marketPrice market) price then
      match env.fetchResult with
      | .error msg =>
        (.ok (some { error := some msg, alert := none }),
          [.fetchRequest market price unsub none, .fetchErrorHandled msg])
      | .ok data =>
        match data.error with
        | some e =>
          (.ok (some { error := some e, alert := none }),
            [.fetchRequest market price unsub none, .fetchErrorHandled e])
        | none => (.ok (some data), [.fetchRequest market price unsub none])
    else (.ok none, [.logPriceError market price])

/-- `subscribe(market, price, currentPrice?)` from the source: delegate to
`toggleAlert`; show a success notice when the result has no `error` field.
When `toggleAlert` resolved `undefined`, the `data.error` access raises a
`TypeError` that escapes this method. -/
def subscribe (env : Env) (market : String) (price : ℚ) :
    Except JsError AlertResponse × List Effect :=
  match toggleAlert env market price false with
  | (.error e, tr) => (.error e, tr)
  | (.ok none, tr) => (.error .typeErrorReadError, tr)
  | (.ok (some d), tr) =>
    match d.error with
    | none => (.ok d, tr ++ [.notice none (.added market price) (some "success")])
    | some _ => (.ok d, tr)

/-- `unsubscribe(market, price)` from the source: delegate to `toggleAlert`
with `unsubscribe = true`; notice on a returned `alert` object or on a
result with neither `alert` nor `error`.  When `toggleAlert` resolved
`undefined`, the `data.alert` access raises a `TypeError`. -/
def unsubscribe (env : Env) (market : String) (price : ℚ) :
    Except JsError AlertResponse × List Effect :=
  match toggleAlert env market price true with
  | (.error e, tr) => (.error e, tr)
  | (.ok none, tr) => (.error .typeErrorReadAlert, tr)
  | (.ok (some d), tr) =>
    match d.alert with
    | some a => (.ok d, tr ++ [.notice none (.removed a.1 a.2) (some "success")])
    | none =>
      match d.error with
      | none => (.ok d, tr ++ [.notice none .notFound none])
      | some _ => (.ok d, tr)

/-- The outcome of a `createAlert` call: the final state of the created
record, the list passed to `saveAlerts` and the effect trace. -/
structure CreateResult where
  createdAlert : MarketAlert
  savedList : List MarketAlert
  trace : List Effect
deriving DecidableEq, Repr

/-- `createAlert(createdAlert, marketAlerts, currentPrice?)` from the
source: `marketAlerts.push(createdAlert)` first (a reference, so the
persisted entry below is the same, possibly mutated, record); then
`subscribe`: on resolution set `active = !data.error`, on rejection show the
push-permission error notice and leave `active` untouched; in both cases
persist the appended list and emit the `add` event. -/
def createAlert (env : Env) (createdAlert : MarketAlert)
    (marketAlerts : List MarketAlert) : CreateResult :=
  match subscribe env createdAlert.market createdAlert.price with
  | (.ok data, tr) =>
    let updated := { createdAlert with active := data.error.isNone }
    { createdAlert := updated,
      savedList := marketAlerts ++ [updated],
      trace := tr ++
        [.saveAlerts createdAlert.market (marketAlerts ++ [updated]),
         .emitAlert createdAlert.price createdAlert.market (.add createdAlert.timestamp)] }
  | (.error e, tr) =>
    { createdAlert := createdAlert,
      savedList := marketAlerts ++ [createdAlert],
      trace := tr ++
        [.notice (some "alert-registration-failure") (.pushPermission e) (some "error"),
         .saveAlerts createdAlert.market (marketAlerts ++ [createdAlert]),
         .emitAlert createdAlert.price createdAlert.market (.add createdAlert.timestamp)] }

/-- The `active` flag `moveAlert` computes from its fetch chain: `true` only
when the response resolved with no `error` field (an `error` field is thrown
and caught to `false`, a network failure likewise). -/
def moveRemoteActive (env : Env) : Bool :=
  match env.fetchResult with
  | .error _ => false
  | .ok data => data.error.isNone

/-- The fetch-stage effects of `moveAlert`'s chain. -/
def moveFetchEffects (env : Env) (market : String) (price newPrice : ℚ) : List Effect :=
  match env.fetchResult with
  | .error msg =>
    [.fetchRequest market price false (some newPrice), .fetchErrorHandled msg]
  | .ok data =>
    match data.error with
    | some e =>
      [.fetchRequest market price false (some newPrice), .fetchErrorHandled e]
    | none => [.fetchRequest market price false (some newPrice)]

/-- The outcome of a `moveAlert` call: `result` is `Except.error` when an
exception escaped (the platform rejection inside `getPushSubscription`),
`movedAlert` is the final state of the record. -/
structure MoveResult where
  result : Except JsError Unit
  movedAlert : MarketAlert
  trace : List Effect
deriving DecidableEq, Repr

/-- `moveAlert(movedAlert, newPrice, currentPrice, marketAlerts)` from the
source.  `movedAlert` is the record stored at index `i` of `marketAlerts`
(it is mutated in place, so the persisted list carries the updated record at
that slot).  Early `return` on a missing subscription or a rejected
validation; otherwise POST the move, emit the `alert` event with the *old*
price plus `newPrice`, then mutate the record (`triggered = false`,
`active` from the remote outcome, `price = newPrice`) and persist the
list. -/
def moveAlert (env : Env) (movedAlert : MarketAlert) (newPrice : ℚ)
    (marketAlerts : List MarketAlert) (i : ℕ) : MoveResult :=
  match getPushSubscription env with
  | .error e => { result := .error e, movedAlert := movedAlert, trace := [] }
  | .ok none => { result := .ok (), movedAlert := movedAlert, trace := [] }
  | .ok (some _) =>
    if validateAlert (env.marketPrice movedAlert.market) newPrice then
      let active := moveRemoteActive env
      let updated :=
        { movedAlert with price := newPrice, triggered := false, active := active }
      { result := .ok (),
        movedAlert := updated,
        trace := moveFetchEffects env movedAlert.market movedAlert.price newPrice ++
          [.emitAlert movedAlert.price movedAlert.market (.move newPrice),
           .mutateRecord newPrice false active,
           .saveAlerts movedAlert.market (marketAlerts.set i updated)] }
    else
      { result := .ok (), movedAlert := movedAlert,
        trace := [.logPriceError movedAlert.market newPrice] }

/-- `removeAlert(removedAlert, marketAlerts?)` from the source: when the
alert has not yet triggered, attempt `unsubscribe` first, catching any
exception (the catch shows the push-permission notice only when the global
`alert` function is truthy — always, in a browser — and the record was
`active`); always emit the `remove` event; when a market list is supplied,
persist it with every entry of the removed price filtered out.  This method
never throws. -/
def removeAlert (env : Env) (removedAlert : MarketAlert)
    (marketAlerts : Option (List MarketAlert)) : List Effect :=
  (if removedAlert.triggered then []
   else
     match unsubscribe env removedAlert.market removedAlert.price with
     | (.ok _, tr) => tr
     | (.error e, tr) =>
       if removedAlert.active then
         tr ++ [.notice (some "alert-registration-failure") (.pushPermission e) (some "error")]
       else tr) ++
  [.emitAlert removedAlert.price removedAlert.market .remove] ++
  (match marketAlerts with
   | none => []
   | some l =>
     [.saveAlerts removedAlert.market
       (l.filter fun a => decide (a.price ≠ removedAlert.price))])

/-! ## Concrete sample inputs used by counterexamples and witnesses -/

/-- A fully working environment: key configured, subscription cached, every
market priced at 100, backend answering success. -/
def envValid : Env :=
  { hasVapidKey := true, pushSubscription := some { endpoint := "ep" },
    serviceWorkerAvailable := true, platformSubscribe := .ok { endpoint := "ep" },
    marketPrice := fun _ => some 100,
    fetchResult := .ok { error := none, alert := none } }

/-- An environment with no push application key configured. -/
def envNoKey : Env :=
  { hasVapidKey := false, pushSubscription := none,
    serviceWorkerAvailable := true, platformSubscribe := .ok { endpoint := "ep" },
    marketPrice := fun _ => some 100,
    fetchResult := .ok { error := none, alert := none } }

/-- An environment where the platform push interaction rejects (for example,
notification permission denied), with no cached subscription. -/
def envDenied : Env :=
  { hasVapidKey := true, pushSubscription := none,
    serviceWorkerAvailable := true, platformSubscribe := .error "permission denied",
    marketPrice := fun _ => some 100,
    fetchResult := .ok { error := none, alert := none } }

/-- A working environment whose fetch round trip fails on the network. -/
def envNetFail : Env :=
  { hasVapidKey := true, pushSubscription := some { endpoint := "ep" },
    serviceWorkerAvailable := true, platformSubscribe := .ok { endpoint := "ep" },
    marketPrice := fun _ => some 100,
    fetchResult := .error "Failed to fetch" }

/-- The spec's sample created alert `{market:'ETH-USD', price:2000}`. -/
def ethAlert : MarketAlert :=
  { market := "ETH-USD", price := 2000, timestamp := 3, active := false,
    triggered := false }

/-- A created alert with a negative (rejected) price. -/
def negAlert : MarketAlert :=
  { market := "ETH-USD", price := -5, timestamp := 7, active := false,
    triggered := false }

/-- The spec's sample moved alert at price 100 on market `X`. -/
def xAlert : MarketAlert :=
  { market := "X", price := 100, timestamp := 5, active := true,
    triggered := false }

/-- An alert that has already triggered. -/
def trigAlert : MarketAlert :=
  { market := "X", price := 100, timestamp := 5, active := true,
    triggered := true }

end AlertService

namespace AlertService

/-! ## Theorems for C1, C3, C9 -/

/-- C1, counterexample: the claim says `getAlerts` never delegates to the
store adapter before the initial sync gate has resolved, *including when
called before the initial sync has ever been started*.  In the code the gate
is awaited only under `if (this._promiseOfSync)`: when the field is still
`undefined` (sync never started), the call delegates immediately and performs
no wait at all. -/
theorem getAlerts_before_sync_skips_gate :
    getAlertsActions none "BTC-USD" = [ReadAction.queryStore "BTC-USD"] ∧
      ReadAction.awaitSyncGate ∉ getAlertsActions none "BTC-USD" := by
  decide

/-- C1, amended: `getAlerts(market)` awaits the sync gate exactly when the
gate field has been assigned (i.e. a sync has been started); when the field
is still unset it delegates to the store adapter without any wait. -/
theorem getAlerts_waits_iff_gate_assigned (g : Option ℕ) (market : String) :
    getAlertsActions g market =
      if g.isSome then [ReadAction.awaitSyncGate, ReadAction.queryStore market]
      else [ReadAction.queryStore market] := by
  cases g <;> rfl

/-- C3, counterexample: the claim says `validate(market, -5)` returns false
regardless of whether the current market price is known.  In the code the
`price < 0` check sits inside `if (marketPrice)`: when the market price is
unknown (`getPrice` resolved `null`), the negative price `-5` is accepted. -/
theorem validateAlert_accepts_minus_five_when_price_unknown :
    validateAlert none (-5) = true := by
  decide

/-- C3, amended: a negative proposed price is rejected whenever the current
market price is known and nonzero (truthy); when the current price is
unavailable, every price — including a negative one — is accepted. -/
theorem validateAlert_negative_price (mp p q : ℚ) (hmp : mp ≠ 0) (hp : p < 0) :
    validateAlert (some mp) p = false ∧ validateAlert none q = true := by
  constructor
  · simp only [validateAlert]
    rw [if_pos hmp, if_pos (Or.inl hp)]
  · rfl

/-- C3, witness for the amended theorem at market price `50000` and proposed
price `-5`. -/
theorem validateAlert_negative_price_witness :
    validateAlert (some 50000) (-5) = false ∧ validateAlert none (-5) = true :=
  validateAlert_negative_price 50000 (-5) (-5) (by norm_num) (by norm_num)

/-- C9, counterexample: the claim says the sync gate is created at most once
per process lifetime and never replaced even if the sync entry point is
invoked again.  The body of `syncTriggeredAlerts` assigns
`this._promiseOfSync = new Promise(...)` unconditionally, so a second
invocation constructs a second gate and replaces the first. -/
theorem syncGate_replaced_on_second_invocation :
    (syncTriggeredAlerts (syncTriggeredAlerts initialSyncState)).gatesCreated = 2 ∧
      (syncTriggeredAlerts (syncTriggeredAlerts initialSyncState)).promiseOfSync ≠
        (syncTriggeredAlerts initialSyncState).promiseOfSync := by
  decide

/-- C9, amended: every invocation of `syncTriggeredAlerts` constructs one
fresh gate promise and assigns it to the field, so after `n` invocations from
the initial state exactly `n` gates have been created: the gate is created
once per process lifetime only when the entry point is invoked exactly once,
and invoking it again does replace the gate. -/
theorem syncGate_fresh_on_every_invocation (s : SyncState) (n : ℕ) :
    (syncTriggeredAlerts s).promiseOfSync = some s.gatesCreated ∧
      (syncTriggeredAlerts s).gatesCreated = s.gatesCreated + 1 ∧
      (syncTriggeredAlerts^[n] initialSyncState).gatesCreated = n := by
  refine ⟨rfl, rfl, ?_⟩
  induction n with
  | zero => rfl
  | succ k ih =>
    rw [Function.iterate_succ_apply']
    show (syncTriggeredAlerts^[k] initialSyncState).gatesCreated + 1 = k + 1
    rw [ih]

/-! ## Lemmas about `markFirst` and `foldMark` -/

theorem markFirst_length (alerts : List MarketAlert) (p : ℚ) :
    (markFirst alerts p).length = alerts.length := by
  induction alerts with
  | nil => rfl
  | cons a rest ih =>
    by_cases hp : a.price = p <;> simp [markFirst, hp, ih]

theorem foldMark_length (ps : List ℚ) (alerts : List MarketAlert) :
    (foldMark alerts ps).length = alerts.length := by
  induction ps generalizing alerts with
  | nil => rfl
  | cons p ps ih =>
    have h : foldMark alerts (p :: ps) = foldMark (markFirst alerts p) ps := rfl
    rw [h, ih, markFirst_length]

theorem markFirst_getElem (alerts : List MarketAlert) (p : ℚ) (i : ℕ) :
    (markFirst alerts p)[i]? =
      (alerts[i]?).map fun a =>
        if firstMatchIdx alerts p = some i then { a with triggered := true } else a := by
  induction alerts generalizing i with
  | nil => simp [markFirst, firstMatchIdx]
  | cons a rest ih =>
    by_cases hp : a.price = p
    · simp only [markFirst, firstMatchIdx, if_pos hp]
      cases i with
      | zero => simp
      | succ j => simp
    · simp only [markFirst, firstMatchIdx, if_neg hp]
      cases i with
      | zero =>
        cases h : firstMatchIdx rest p <;> simp [h]
      | succ j =>
        simp only [List.getElem?_cons_succ]
        rw [ih j]
        cases h : firstMatchIdx rest p <;> simp [h]

theorem firstMatchIdx_markFirst (alerts : List MarketAlert) (q p : ℚ) :
    firstMatchIdx (markFirst alerts q) p = firstMatchIdx alerts p := by
  induction alerts with
  | nil => rfl
  | cons a rest ih =>
    by_cases hq : a.price = q
    · simp only [markFirst, if_pos hq]
      rfl
    · simp only [markFirst, if_neg hq, firstMatchIdx, ih]

theorem firstMatchAt_markFirst (alerts : List MarketAlert) (q : ℚ) (ps : List ℚ) (i : ℕ) :
    firstMatchAt (markFirst alerts q) ps i = firstMatchAt alerts ps i := by
  unfold firstMatchAt
  congr 1
  funext p
  rw [firstMatchIdx_markFirst]

theorem foldMark_getElem (ps : List ℚ) (alerts : List MarketAlert) (i : ℕ) :
    (foldMark alerts ps)[i]? =
      (alerts[i]?).map fun a =>
        if firstMatchAt alerts ps i then { a with triggered := true } else a := by
  induction ps generalizing alerts with
  | nil => simp [foldMark, firstMatchAt]
  | cons p ps ih =>
    have hstep : foldMark alerts (p :: ps) = foldMark (markFirst alerts p) ps := rfl
    rw [hstep, ih, firstMatchAt_markFirst, markFirst_getElem]
    cases halerts : alerts[i]? with
    | none => rfl
    | some a =>
      have hcons : firstMatchAt alerts (p :: ps) i =
          (decide (firstMatchIdx alerts p = some i) || firstMatchAt alerts ps i) := by
        simp [firstMatchAt]
      rw [hcons]
      by_cases h1 : firstMatchIdx alerts p = some i <;>
        cases h2 : firstMatchAt alerts ps i <;>
          simp [h1, h2]

theorem markFirst_no_match (alerts : List MarketAlert) (p : ℚ)
    (h : firstMatchIdx alerts p = none) : markFirst alerts p = alerts := by
  induction alerts with
  | nil => rfl
  | cons a rest ih =>
    by_cases hp : a.price = p
    · simp [firstMatchIdx, hp] at h
    · simp only [firstMatchIdx, if_neg hp] at h
      cases hr : firstMatchIdx rest p with
      | none => simp [markFirst, hp, ih hr]
      | some j => rw [hr] at h; simp at h

theorem foldMark_no_match (ps : List ℚ) (alerts : List MarketAlert)
    (h : ∀ p ∈ ps, firstMatchIdx alerts p = none) : foldMark alerts ps = alerts := by
  induction ps with
  | nil => rfl
  | cons p ps ih =>
    have hstep : foldMark alerts (p :: ps) = foldMark (markFirst alerts p) ps := rfl
    rw [hstep, markFirst_no_match alerts p (h p (List.mem_cons_self p ps))]
    exact ih fun q hq => h q (List.mem_cons_of_mem p hq)

theorem firstMatchIdx_getElem (alerts : List MarketAlert) (p : ℚ) (i : ℕ)
    (h : firstMatchIdx alerts p = some i) :
    ∃ a, alerts[i]? = some a ∧ a.price = p := by
  induction alerts generalizing i with
  | nil => simp [firstMatchIdx] at h
  | cons a rest ih =>
    by_cases hp : a.price = p
    · simp only [firstMatchIdx, if_pos hp, Option.some_inj] at h
      subst h
      exact ⟨a, by simp, hp⟩
    · simp only [firstMatchIdx, if_neg hp] at h
      cases hr : firstMatchIdx rest p with
      | none => rw [hr] at h; simp at h
      | some j =>
        rw [hr] at h
        simp at h
        subst h
        obtain ⟨b, hb, hbp⟩ := ih j hr
        exact ⟨b, by simpa using hb, hbp⟩

/-! ## Lemmas about event grouping -/

theorem lookupG_addToGroups_self (gs : List (String × List ℚ)) (m : String) (p : ℚ) :
    lookupG (addToGroups gs m p) m = some (((lookupG gs m).getD []) ++ [p]) := by
  induction gs with
  | nil => simp [addToGroups, lookupG]
  | cons kps rest ih =>
    obtain ⟨k, qs⟩ := kps
    by_cases hk : k = m
    · simp [addToGroups, lookupG, hk]
    · simp [addToGroups, lookupG, hk, ih]

theorem lookupG_addToGroups_other (gs : List (String × List ℚ)) (m : String) (p : ℚ)
    (m' : String) (h : m' ≠ m) :
    lookupG (addToGroups gs m p) m' = lookupG gs m' := by
  induction gs with
  | nil =>
    simp only [addToGroups, lookupG]
    rw [if_neg (fun hh => h hh.symm)]
  | cons kps rest ih =>
    obtain ⟨k, qs⟩ := kps
    by_cases hk : k = m
    · subst hk
      simp only [addToGroups, if_pos rfl, lookupG]
      rw [if_neg (fun hh => h hh.symm), if_neg (fun hh => h hh.symm)]
    · by_cases hk2 : k = m'
      · simp [addToGroups, lookupG, hk, hk2, h]
      · simp [addToGroups, lookupG, hk, hk2, ih]

theorem keys_addToGroups (gs : List (String × List ℚ)) (m : String) (p : ℚ) :
    (addToGroups gs m p).map Prod.fst =
      if m ∈ gs.map Prod.fst then gs.map Prod.fst else gs.map Prod.fst ++ [m] := by
  induction gs with
  | nil => simp [addToGroups]
  | cons kps rest ih =>
    obtain ⟨k, qs⟩ := kps
    by_cases hk : k = m
    · simp [addToGroups, hk]
    · by_cases hm : m ∈ rest.map Prod.fst
      · simp [addToGroups, hk, hm, ih, Ne.symm hk]
      · simp [addToGroups, hk, hm, ih, Ne.symm hk]

theorem nodup_keys_addToGroups (gs : List (String × List ℚ)) (m : String) (p : ℚ)
    (h : (gs.map Prod.fst).Nodup) : ((addToGroups gs m p).map Prod.fst).Nodup := by
  rw [keys_addToGroups]
  by_cases hm : m ∈ gs.map Prod.fst
  · simpa [hm] using h
  · rw [if_neg hm, List.nodup_append]
    refine ⟨h, List.nodup_singleton m, ?_⟩
    intro x hx hx2
    simp only [List.mem_singleton] at hx2
    subst hx2
    exact hm hx

theorem nodup_keys_groupStep (acc : List (String × List ℚ)) (ev : TriggerEvent)
    (h : (acc.map Prod.fst).Nodup) : ((groupStep acc ev).map Prod.fst).Nodup := by
  unfold groupStep
  cases hev : validEvent ev with
  | none => exact h
  | some mp => exact nodup_keys_addToGroups acc mp.1 mp.2 h

theorem nodup_keys_foldl_groupStep (evs : List TriggerEvent) :
    ∀ acc : List (String × List ℚ), (acc.map Prod.fst).Nodup →
      ((evs.foldl groupStep acc).map Prod.fst).Nodup := by
  induction evs with
  | nil => intro acc h; exact h
  | cons e rest ih =>
    intro acc h
    exact ih (groupStep acc e) (nodup_keys_groupStep acc e h)

theorem groupEvents_nodup (evs : List TriggerEvent) :
    ((groupEvents evs).map Prod.fst).Nodup :=
  nodup_keys_foldl_groupStep evs [] List.nodup_nil

theorem mem_addToGroups_self (gs : List (String × List ℚ)) (m : String) (p : ℚ) :
    p ∈ (lookupG (addToGroups gs m p) m).getD [] := by
  rw [lookupG_addToGroups_self]
  simp

theorem mem_groupStep_mono (acc : List (String × List ℚ)) (ev : TriggerEvent)
    (m : String) (p : ℚ) (h : p ∈ (lookupG acc m).getD []) :
    p ∈ (lookupG (groupStep acc ev) m).getD [] := by
  unfold groupStep
  cases hev : validEvent ev with
  | none => exact h
  | some mp =>
    obtain ⟨m2, p2⟩ := mp
    by_cases hm : m = m2
    · subst hm
      rw [lookupG_addToGroups_self]
      simp only [Option.getD_some]
      exact List.mem_append_left _ h
    · rw [lookupG_addToGroups_other acc m2 p2 m hm]
      exact h

theorem mem_foldl_groupStep_mono (evs : List TriggerEvent) :
    ∀ (acc : List (String × List ℚ)) (m : String) (p : ℚ),
      p ∈ (lookupG acc m).getD [] →
        p ∈ (lookupG (evs.foldl groupStep acc) m).getD [] := by
  induction evs with
  | nil => intro acc m p h; exact h
  | cons e rest ih =>
    intro acc m p h
    exact ih (groupStep acc e) m p (mem_groupStep_mono acc e m p h)

theorem mem_foldl_groupStep_of_validEvent (evs : List TriggerEvent) :
    ∀ (acc : List (String × List ℚ)) (ev : TriggerEvent) (m : String) (p : ℚ),
      ev ∈ evs → validEvent ev = some (m, p) →
        p ∈ (lookupG (evs.foldl groupStep acc) m).getD [] := by
  induction evs with
  | nil => intro acc ev m p h; simp at h
  | cons e rest ih =>
    intro acc ev m p hmem hval
    simp only [List.foldl_cons]
    rcases List.mem_cons.mp hmem with he | he
    · subst he
      apply mem_foldl_groupStep_mono
      unfold groupStep
      rw [hval]
      exact mem_addToGroups_self acc m p
    · exact ih (groupStep acc e) ev m p he hval

theorem mem_priceList_of_validEvent (evs : List TriggerEvent) (ev : TriggerEvent)
    (m : String) (p : ℚ) (hmem : ev ∈ evs) (hval : validEvent ev = some (m, p)) :
    p ∈ priceList evs m :=
  mem_foldl_groupStep_of_validEvent evs [] ev m p hmem hval

theorem foldl_groupStep_invalid (evs : List TriggerEvent) :
    ∀ acc : List (String × List ℚ), (∀ ev ∈ evs, validEvent ev = none) →
      evs.foldl groupStep acc = acc := by
  induction evs with
  | nil => intro acc _; rfl
  | cons e rest ih =>
    intro acc h
    simp only [List.foldl_cons]
    have he : groupStep acc e = acc := by
      unfold groupStep
      rw [h e (List.mem_cons_self e rest)]
    rw [he]
    exact ih acc fun ev hev => h ev (List.mem_cons_of_mem e hev)

/-! ## Lemmas about the per-market loop -/

theorem processMarket_ne (store : String → List MarketAlert) (entry : String × List ℚ)
    (m : String) (h : m ≠ entry.1) : processMarket store entry m = store m := by
  unfold processMarket
  by_cases he : store entry.1 = []
  · simp [he]
  · simp [he, h]

theorem foldl_processMarket_not_mem (gs : List (String × List ℚ)) :
    ∀ (store : String → List MarketAlert) (m : String), m ∉ gs.map Prod.fst →
      gs.foldl processMarket store m = store m := by
  induction gs with
  | nil => intro store m _; rfl
  | cons g rest ih =>
    intro store m h
    simp only [List.map_cons, List.mem_cons, not_or] at h
    simp only [List.foldl_cons]
    rw [ih (processMarket store g) m h.2, processMarket_ne store g m h.1]

theorem foldl_processMarket_eval (gs : List (String × List ℚ)) :
    ∀ (store : String → List MarketAlert) (m : String), (gs.map Prod.fst).Nodup →
      gs.foldl processMarket store m = applyGroup (store m) (lookupG gs m) := by
  induction gs with
  | nil => intro store m _; rfl
  | cons g rest ih =>
    obtain ⟨k, qs⟩ := g
    intro store m h
    simp only [List.map_cons, List.nodup_cons] at h
    simp only [List.foldl_cons]
    by_cases hm : m = k
    · subst hm
      rw [foldl_processMarket_not_mem rest (processMarket store (m, qs)) m h.1]
      simp only [lookupG, if_pos rfl, applyGroup, processMarket]
      by_cases he : store m = [] <;> simp [he]
    · rw [ih (processMarket store (k, qs)) m h.2,
        processMarket_ne store (k, qs) m hm]
      simp only [lookupG]
      rw [if_neg (fun hh => hm hh.symm)]

theorem markAlertsAsTriggered_eval (store : String → List MarketAlert)
    (evs : List TriggerEvent) (m : String) :
    markAlertsAsTriggered store evs m =
      applyGroup (store m) (lookupG (groupEvents evs) m) :=
  foldl_processMarket_eval (groupEvents evs) store m (groupEvents_nodup evs)

/-! ## Theorem for C2 -/

/-- C2: for every store, trigger-event list and market: the result list has
the same length as the stored list; every event with a (truthy) market, a
numeric price and a stored alert of exactly that price ends with the first
such stored alert having `triggered = true` (all its other fields intact);
every stored alert that is not the first price match of any well-formed
event for its market is unchanged; a list of events that all lack a market
or a numeric price leaves the whole store unchanged; and events whose price
matches no stored alert of their market leave that market's list unchanged —
all without any failure (the embedding is total). -/
theorem markAlertsAsTriggered_correct (store : String → List MarketAlert)
    (evs : List TriggerEvent) (m : String) :
    ((markAlertsAsTriggered store evs) m).length = (store m).length ∧
    (∀ ev ∈ evs, ∀ p : ℚ, validEvent ev = some (m, p) →
      ∀ i : ℕ, firstMatchIdx (store m) p = some i →
        ∃ a, (store m)[i]? = some a ∧ a.price = p ∧
          ((markAlertsAsTriggered store evs) m)[i]? =
            some { a with triggered := true }) ∧
    (∀ i : ℕ, ∀ a : MarketAlert, (store m)[i]? = some a →
      firstMatchAt (store m) (priceList evs m) i = false →
        ((markAlertsAsTriggered store evs) m)[i]? = some a) ∧
    ((∀ ev ∈ evs, validEvent ev = none) → markAlertsAsTriggered store evs = store) ∧
    ((∀ p ∈ priceList evs m, firstMatchIdx (store m) p = none) →
      (markAlertsAsTriggered store evs) m = store m) := by
  have heval := markAlertsAsTriggered_eval store evs m
  refine ⟨?_, ?_, ?_, ?_, ?_⟩
  · rw [heval]
    cases hl : lookupG (groupEvents evs) m with
    | none => rfl
    | some ps =>
      simp only [applyGroup]
      by_cases he : store m = []
      · rw [if_pos he]
      · rw [if_neg he, foldMark_length]
  · intro ev hmem p hval i hidx
    have hp : p ∈ priceList evs m := mem_priceList_of_validEvent evs ev m p hmem hval
    obtain ⟨a, ha, hap⟩ := firstMatchIdx_getElem (store m) p i hidx
    refine ⟨a, ha, hap, ?_⟩
    cases hl : lookupG (groupEvents evs) m with
    | none =>
      exfalso
      unfold priceList at hp
      rw [hl] at hp
      simp at hp
    | some ps =>
      have hps : ps = priceList evs m := by
        unfold priceList
        rw [hl]
        rfl
      have hne : store m ≠ [] := by
        intro hcontra
        rw [hcontra] at hidx
        simp [firstMatchIdx] at hidx
      rw [heval, hl]
      simp only [applyGroup, if_neg hne]
      rw [foldMark_getElem, ha]
      have hat : firstMatchAt (store m) ps i = true := by
        apply List.any_eq_true.mpr
        exact ⟨p, by rw [hps]; exact hp, decide_eq_true hidx⟩
      simp [hat]
  · intro i a ha hat
    cases hl : lookupG (groupEvents evs) m with
    | none =>
      rw [heval, hl]
      exact ha
    | some ps =>
      have hps : ps = priceList evs m := by
        unfold priceList
        rw [hl]
        rfl
      rw [heval, hl]
      simp only [applyGroup]
      by_cases he : store m = []
      · rw [if_pos he]
        exact ha
      · rw [if_neg he, foldMark_getElem, ha]
        rw [← hps] at hat
        simp [hat]
  · intro hinv
    unfold markAlertsAsTriggered groupEvents
    rw [foldl_groupStep_invalid evs [] hinv]
    rfl
  · intro hnone
    rw [heval]
    cases hl : lookupG (groupEvents evs) m with
    | none => rfl
    | some ps =>
      have hps : ps = priceList evs m := by
        unfold priceList
        rw [hl]
        rfl
      simp only [applyGroup]
      by_cases he : store m = []
      · rw [if_pos he]
      · rw [if_neg he]
        exact foldMark_no_match ps (store m) fun p hp => hnone p (hps ▸ hp)

/-- C2, witness: a store holding two BTC-USD alerts (prices 100 and 200) and
a single trigger event for price 100; the theorem yields that after the
sweep the first (and only) alert at price 100 is marked triggered. -/
theorem markAlertsAsTriggered_correct_witness :
    ∃ a, ((fun m => if m = "BTC-USD" then
        [{ market := "BTC-USD", price := 100, timestamp := 0, active := true,
           triggered := false },
         { market := "BTC-USD", price := 200, timestamp := 1, active := false,
           triggered := false }] else ([] : List MarketAlert)) "BTC-USD")[0]? = some a ∧
      a.price = 100 ∧
      (markAlertsAsTriggered
        (fun m => if m = "BTC-USD" then
          [{ market := "BTC-USD", price := 100, timestamp := 0, active := true,
             triggered := false },
           { market := "BTC-USD", price := 200, timestamp := 1, active := false,
             triggered := false }] else ([] : List MarketAlert))
        [{ market := some "BTC-USD", price := some 100 }] "BTC-USD")[0]? =
        some { a with triggered := true } :=
  (markAlertsAsTriggered_correct
    (fun m => if m = "BTC-USD" then
      [{ market := "BTC-USD", price := 100, timestamp := 0, active := true,
         triggered := false },
       { market := "BTC-USD", price := 200, timestamp := 1, active := false,
         triggered := false }] else ([] : List MarketAlert))
    [{ market := some "BTC-USD", price := some 100 }] "BTC-USD").2.1
    { market := some "BTC-USD", price := some 100 } (by decide) 100 (by decide) 0 (by decide)

/-! ## Lemmas about the lifecycle methods -/

theorem getPushSubscription_no_key (env : Env) (h : env.hasVapidKey = false) :
    getPushSubscription env = .ok none := by
  unfold getPushSubscription
  rw [h]
  rfl

theorem toggleAlert_no_sub (env : Env) (m : String) (p : ℚ) (u : Bool)
    (h : getPushSubscription env = .ok none) :
    toggleAlert env m p u = (.ok none, []) := by
  unfold toggleAlert
  rw [h]

theorem toggleAlert_validation_reject (env : Env) (m : String) (p : ℚ) (u : Bool)
    (s : PushSubscription) (hsub : getPushSubscription env = .ok (some s))
    (hval : validateAlert (env.marketPrice m) p = false) :
    toggleAlert env m p u = (.ok none, [.logPriceError m p]) := by
  unfold toggleAlert
  rw [hsub]
  simp [hval]

theorem subscribe_toggle_none (env : Env) (m : String) (p : ℚ) (tr : List Effect)
    (h : toggleAlert env m p false = (.ok none, tr)) :
    subscribe env m p = (.error .typeErrorReadError, tr) := by
  unfold subscribe
  rw [h]

/-! ## Theorems for C4, C5, C6, C7, C8, C10 -/

/-- C4, counterexample: the claim says every lifecycle operation whose
validation rejects the price aborts before any network call and before any
mutation of the stored alert list.  `createAlert` appends the new record to
the list before subscribing and persists it regardless: with a working
subscription and a price the validator rejects (`-5` against market price
`100`), the persisted list still gains the entry. -/
theorem createAlert_validation_reject_still_mutates_store :
    validateAlert (envValid.marketPrice "ETH-USD") (-5) = false ∧
      (createAlert envValid negAlert []).savedList = [negAlert] ∧
      Effect.saveAlerts "ETH-USD" [negAlert] ∈ (createAlert envValid negAlert []).trace := by
  decide

/-- C4, amended: when validation rejects the proposed price, `moveAlert`
does abort before any network call and before any store mutation or event
emission (the record and list are untouched, only the local log remains);
`createAlert`, however, performs no network call but still persists the
optimistically appended entry (and `removeAlert` runs no validation at
all). -/
theorem validation_reject_abort_behavior (env : Env) (s : PushSubscription)
    (a : MarketAlert) (np : ℚ) (l : List MarketAlert) (i : ℕ)
    (hsub : getPushSubscription env = .ok (some s))
    (hvalMove : validateAlert (env.marketPrice a.market) np = false)
    (hvalCreate : validateAlert (env.marketPrice a.market) a.price = false) :
    ((moveAlert env a np l i).movedAlert = a ∧
      (moveAlert env a np l i).trace = [.logPriceError a.market np]) ∧
    ((∀ m p u n, Effect.fetchRequest m p u n ∉ (createAlert env a l).trace) ∧
      (createAlert env a l).savedList = l ++ [a] ∧
      Effect.saveAlerts a.market (l ++ [a]) ∈ (createAlert env a l).trace) := by
  have hmove : moveAlert env a np l i =
      { result := .ok (), movedAlert := a, trace := [.logPriceError a.market np] } := by
    unfold moveAlert
    rw [hsub]
    simp [hvalMove]
  have hcreate : createAlert env a l =
      { createdAlert := a, savedList := l ++ [a],
        trace := [.logPriceError a.market a.price] ++
          [.notice (some "alert-registration-failure")
             (.pushPermission .typeErrorReadError) (some "error"),
           .saveAlerts a.market (l ++ [a]),
           .emitAlert a.price a.market (.add a.timestamp)] } := by
    unfold createAlert
    rw [subscribe_toggle_none env a.market a.price _
      (toggleAlert_validation_reject env a.market a.price false s hsub hvalCreate)]
  refine ⟨⟨by rw [hmove], by rw [hmove]⟩, ?_, by rw [hcreate], ?_⟩
  · intro m p u n
    rw [hcreate]
    simp
  · rw [hcreate]
    simp

/-- C4, witness: the amended theorem applied to a working environment and
the alert at price `-5`. -/
theorem validation_reject_abort_behavior_witness :
    ((moveAlert envValid negAlert (-7) [] 0).movedAlert = negAlert ∧
      (moveAlert envValid negAlert (-7) [] 0).trace =
        [.logPriceError negAlert.market (-7)]) ∧
    ((∀ m p u n, Effect.fetchRequest m p u n ∉ (createAlert envValid negAlert []).trace) ∧
      (createAlert envValid negAlert []).savedList = [] ++ [negAlert] ∧
      Effect.saveAlerts negAlert.market ([] ++ [negAlert]) ∈
        (createAlert envValid negAlert []).trace) :=
  validation_reject_abort_behavior envValid { endpoint := "ep" } negAlert (-7) [] 0
    (by decide) (by decide) (by decide)

/-- C5, counterexample: the claim says the absence of the push key is
handled silently as a no-op success rather than surfacing an error.  With no
key, `toggleAlert` resolves `undefined`, `subscribe`'s `data.error` access
throws, and `createAlert`'s catch dispatches a user-facing *error* notice. -/
theorem createAlert_no_key_surfaces_error :
    envNoKey.hasVapidKey = false ∧
      Effect.notice (some "alert-registration-failure")
        (.pushPermission .typeErrorReadError) (some "error") ∈
        (createAlert envNoKey ethAlert []).trace := by
  decide

/-- C5, amended: with no push application key configured, `createAlert`
makes no network request, the created alert's `active` flag stays `false`,
and the market's list is still persisted containing the new entry — but the
absence of the key is not silent: the `TypeError` raised on the `undefined`
`toggleAlert` result is caught and surfaced as a push-permission error
notice. -/
theorem createAlert_no_key_behavior (env : Env) (a : MarketAlert)
    (l : List MarketAlert) (hkey : env.hasVapidKey = false)
    (hact : a.active = false) :
    (∀ m p u n, Effect.fetchRequest m p u n ∉ (createAlert env a l).trace) ∧
      (createAlert env a l).createdAlert.active = false ∧
      (createAlert env a l).savedList = l ++ [a] ∧
      Effect.saveAlerts a.market (l ++ [a]) ∈ (createAlert env a l).trace ∧
      Effect.notice (some "alert-registration-failure")
        (.pushPermission .typeErrorReadError) (some "error") ∈
        (createAlert env a l).trace := by
  have hcreate : createAlert env a l =
      { createdAlert := a, savedList := l ++ [a],
        trace := ([] : List Effect) ++
          [.notice (some "alert-registration-failure")
             (.pushPermission .typeErrorReadError) (some "error"),
           .saveAlerts a.market (l ++ [a]),
           .emitAlert a.price a.market (.add a.timestamp)] } := by
    unfold createAlert
    rw [subscribe_toggle_none env a.market a.price []
      (toggleAlert_no_sub env a.market a.price false (getPushSubscription_no_key env hkey))]
  refine ⟨?_, ?_, by rw [hcreate], ?_, ?_⟩
  · intro m p u n
    rw [hcreate]
    simp
  · rw [hcreate]
    exact hact
  · rw [hcreate]
    simp
  · rw [hcreate]
    simp

/-- C5, witness: the amended theorem applied to the spec's
`{market:'ETH-USD', price:2000}` alert with no key configured. -/
theorem createAlert_no_key_behavior_witness :
    (∀ m p u n, Effect.fetchRequest m p u n ∉ (createAlert envNoKey ethAlert []).trace) ∧
      (createAlert envNoKey ethAlert []).createdAlert.active = false ∧
      (createAlert envNoKey ethAlert []).savedList = [] ++ [ethAlert] ∧
      Effect.saveAlerts ethAlert.market ([] ++ [ethAlert]) ∈
        (createAlert envNoKey ethAlert []).trace ∧
      Effect.notice (some "alert-registration-failure")
        (.pushPermission .typeErrorReadError) (some "error") ∈
        (createAlert envNoKey ethAlert []).trace :=
  createAlert_no_key_behavior envNoKey ethAlert [] (by decide) (by decide)

/-- C6: when `moveAlert` passes the subscription and validation steps, the
moved record ends with `price = newPrice` and `triggered = false` whatever
the remote outcome, `active` is true exactly when the fetch resolved with no
error field, the full list (with the record updated in its slot) is
persisted, and the emitted `alert` event carries the old price together with
`newPrice` and sits in the trace before the record mutation (the fetch-stage
prefix contains no emission). -/
theorem moveAlert_spec (env : Env) (s : PushSubscription) (a : MarketAlert)
    (np : ℚ) (l : List MarketAlert) (i : ℕ)
    (hsub : getPushSubscription env = .ok (some s))
    (hval : validateAlert (env.marketPrice a.market) np = true) :
    (moveAlert env a np l i).movedAlert =
      { a with price := np, triggered := false, active := moveRemoteActive env } ∧
    (moveRemoteActive env = true ↔ ∃ d, env.fetchResult = .ok d ∧ d.error = none) ∧
    (moveAlert env a np l i).trace =
      moveFetchEffects env a.market a.price np ++
        [.emitAlert a.price a.market (.move np),
         .mutateRecord np false (moveRemoteActive env),
         .saveAlerts a.market
           (l.set i { a with price := np, triggered := false,
                             active := moveRemoteActive env })] ∧
    (∀ pr mk ex, Effect.emitAlert pr mk ex ∉ moveFetchEffects env a.market a.price np) := by
  have hmove : moveAlert env a np l i =
      { result := .ok (),
        movedAlert := { a with price := np, triggered := false,
                               active := moveRemoteActive env },
        trace := moveFetchEffects env a.market a.price np ++
          [.emitAlert a.price a.market (.move np),
           .mutateRecord np false (moveRemoteActive env),
           .saveAlerts a.market
             (l.set i { a with price := np, triggered := false,
                               active := moveRemoteActive env })] } := by
    unfold moveAlert
    rw [hsub, if_pos hval]
  refine ⟨by rw [hmove], ?_, by rw [hmove], ?_⟩
  · unfold moveRemoteActive
    cases hf : env.fetchResult with
    | error msg => simp
    | ok d => cases hd : d.error <;> simp [hd]
  · intro pr mk ex
    unfold moveFetchEffects
    cases hf : env.fetchResult with
    | error msg => simp
    | ok d => cases hd : d.error <;> simp [hd]

/-- C6, witness: the theorem applied to the spec's scenario of moving the
market-`X` alert from price 100 to 110 in a working environment. -/
theorem moveAlert_spec_witness :
    (moveAlert envValid xAlert 110 [xAlert] 0).movedAlert =
      { xAlert with price := 110, triggered := false,
                    active := moveRemoteActive envValid } ∧
    (moveRemoteActive envValid = true ↔
      ∃ d, envValid.fetchResult = .ok d ∧ d.error = none) ∧
    (moveAlert envValid xAlert 110 [xAlert] 0).trace =
      moveFetchEffects envValid xAlert.market xAlert.price 110 ++
        [.emitAlert xAlert.price xAlert.market (.move 110),
         .mutateRecord 110 false (moveRemoteActive envValid),
         .saveAlerts xAlert.market
           ([xAlert].set 0 { xAlert with price := 110, triggered := false,
                                         active := moveRemoteActive envValid })] ∧
    (∀ pr mk ex, Effect.emitAlert pr mk ex ∉
      moveFetchEffects envValid xAlert.market xAlert.price 110) :=
  moveAlert_spec envValid { endpoint := "ep" } xAlert 110 [xAlert] 0
    (by decide) (by norm_num [validateAlert, envValid])

/-- C7: removing an alert whose `triggered` flag is true attempts no remote
unsubscribe network call; the `remove` alert event is emitted on every
`removeAlert` call whatsoever; and when a market list is supplied, the
persisted list is the supplied list with every entry of the removed price
filtered out. -/
theorem removeAlert_spec (env : Env) (a : MarketAlert) (l : List MarketAlert)
    (htrig : a.triggered = true) :
    (∀ m p u n, Effect.fetchRequest m p u n ∉ removeAlert env a (some l)) ∧
    (∀ (env2 : Env) (b : MarketAlert) (ml : Option (List MarketAlert)),
      Effect.emitAlert b.price b.market .remove ∈ removeAlert env2 b ml) ∧
    Effect.saveAlerts a.market (l.filter fun x => decide (x.price ≠ a.price)) ∈
      removeAlert env a (some l) := by
  have hre : removeAlert env a (some l) =
      ([] : List Effect) ++ [.emitAlert a.price a.market .remove] ++
        [.saveAlerts a.market (l.filter fun x => decide (x.price ≠ a.price))] := by
    unfold removeAlert
    rw [if_pos htrig]
  refine ⟨?_, ?_, ?_⟩
  · intro m p u n
    rw [hre]
    simp
  · intro env2 b ml
    unfold removeAlert
    exact List.mem_append_left _ (List.mem_append_right _ (List.mem_cons_self _ _))
  · rw [hre]
    simp

/-- C7, witness: the theorem applied to a triggered alert with a two-entry
list (the second entry at a different price survives the filter). -/
theorem removeAlert_spec_witness :
    (∀ m p u n, Effect.fetchRequest m p u n ∉
      removeAlert envValid trigAlert (some [trigAlert, ethAlert])) ∧
    (∀ (env2 : Env) (b : MarketAlert) (ml : Option (List MarketAlert)),
      Effect.emitAlert b.price b.market .remove ∈ removeAlert env2 b ml) ∧
    Effect.saveAlerts trigAlert.market
      ([trigAlert, ethAlert].filter fun x => decide (x.price ≠ trigAlert.price)) ∈
      removeAlert envValid trigAlert (some [trigAlert, ethAlert]) :=
  removeAlert_spec envValid trigAlert [trigAlert, ethAlert] (by decide)

/-- C8, counterexample: the claim says `toggleAlert` never throws to its
caller for any input.  When the push key is configured, nothing is cached
and the awaited platform subscribe interaction rejects (e.g. notification
permission denied), the rejection escapes `getPushSubscription` and
propagates out of `toggleAlert` as an exception. -/
theorem toggleAlert_throws_on_platform_rejection :
    (toggleAlert envDenied "BTC-USD" 100 false).1 =
      .error (.platformError "permission denied") := by
  decide

/-- C8, amended: exceptions escape `toggleAlert` only out of the
push-subscription acquisition; whenever `getPushSubscription` does not
throw, `toggleAlert` never throws, and every fetch-stage failure — a network
failure as well as a backend `error` payload (including non-2xx responses
surfaced that way) — is returned to the caller as an `{error: message}` data
result. -/
theorem toggleAlert_failures_as_data (env : Env) (m : String) (p : ℚ) (u : Bool) :
    ((∀ e, getPushSubscription env ≠ .error e) →
      ∀ e, (toggleAlert env m p u).1 ≠ .error e) ∧
    (∀ s msg, getPushSubscription env = .ok (some s) →
      validateAlert (env.marketPrice m) p = true →
      env.fetchResult = .error msg →
      toggleAlert env m p u =
        (.ok (some { error := some msg, alert := none }),
          [.fetchRequest m p u none, .fetchErrorHandled msg])) ∧
    (∀ s d e, getPushSubscription env = .ok (some s) →
      validateAlert (env.marketPrice m) p = true →
      env.fetchResult = .ok d → d.error = some e →
      toggleAlert env m p u =
        (.ok (some { error := some e, alert := none }),
          [.fetchRequest m p u none, .fetchErrorHandled e])) := by
  refine ⟨?_, ?_, ?_⟩
  · intro hok e
    unfold toggleAlert
    cases hsub : getPushSubscription env with
    | error e2 => exact absurd hsub (hok e2)
    | ok o =>
      cases o with
      | none => simp
      | some s =>
        by_cases hval : validateAlert (env.marketPrice m) p = true
        · rw [if_pos hval]
          cases hf : env.fetchResult with
          | error msg => simp
          | ok d =>
            cases hd : d.error with
            | some e2 => simp [hd]
            | none => simp [hd]
        · rw [if_neg hval]
          simp
  · intro s msg hs hval hf
    unfold toggleAlert
    rw [hs, if_pos hval, hf]
  · intro s d e hs hval hf hd
    unfold toggleAlert
    rw [hs, hf]
    simp [hval, hd]

/-- C8, witness: the amended theorem's network-failure clause applied to a
working environment whose fetch fails. -/
theorem toggleAlert_failures_as_data_witness :
    toggleAlert envNetFail "X" 110 false =
      (.ok (some { error := some "Failed to fetch", alert := none }),
        [.fetchRequest "X" 110 false none, .fetchErrorHandled "Failed to fetch"]) :=
  (toggleAlert_failures_as_data envNetFail "X" 110 false).2.1 { endpoint := "ep" }
    "Failed to fetch" (by decide) (by norm_num [validateAlert, envNetFail]) (by decide)

/-- C10: whenever no push subscription is available or validation rejects
the price, `toggleAlert` resolves `undefined`; `subscribe`'s subsequent
`data.error` access then raises a `TypeError`, which `createAlert` catches
and reports as a push-permission error notice instead of completing
silently. -/
theorem toggleAlert_undefined_gives_typeerror_notice (env : Env)
    (a : MarketAlert) (l : List MarketAlert)
    (hcase : getPushSubscription env = .ok none ∨
      ∃ s, getPushSubscription env = .ok (some s) ∧
        validateAlert (env.marketPrice a.market) a.price = false) :
    (toggleAlert env a.market a.price false).1 = .ok none ∧
    (subscribe env a.market a.price).1 = .error .typeErrorReadError ∧
    Effect.notice (some "alert-registration-failure")
      (.pushPermission .typeErrorReadError) (some "error") ∈
      (createAlert env a l).trace := by
  obtain ⟨tr, htog⟩ : ∃ tr, toggleAlert env a.market a.price false = (.ok none, tr) := by
    rcases hcase with h | ⟨s, hs, hval⟩
    · exact ⟨[], toggleAlert_no_sub env a.market a.price false h⟩
    · exact ⟨[.logPriceError a.market a.price],
        toggleAlert_validation_reject env a.market a.price false s hs hval⟩
  have hsubm := subscribe_toggle_none env a.market a.price tr htog
  refine ⟨by rw [htog], by rw [hsubm], ?_⟩
  unfold createAlert
  rw [hsubm]
  exact List.mem_append_right _ (List.mem_cons_self _ _)

/-- C10, witness: the theorem applied to the no-key environment and the
sample ETH-USD alert. -/
theorem toggleAlert_undefined_gives_typeerror_notice_witness :
    (toggleAlert envNoKey ethAlert.market ethAlert.price false).1 = .ok none ∧
    (subscribe envNoKey ethAlert.market ethAlert.price).1 =
      .error .typeErrorReadError ∧
    Effect.notice (some "alert-registration-failure")
      (.pushPermission .typeErrorReadError) (some "error") ∈
      (createAlert envNoKey ethAlert []).trace :=
  toggleAlert_undefined_gives_typeerror_notice envNoKey ethAlert []
    (Or.inl (by decide))

end AlertService
